import Mathlib

/-!
Verification development for the yt-sv-translator repository.

The repository translates bilingual spreadsheet dialogue rows with an LLM
backend while keeping a rolling context window.  This file gives a shallow
embedding of the parts of the source that the checked claims are about:

* `src/utils.py`   : `extract_candidate_terms`
* `src/context.py` : `RollingContext.update` (windows and glossary)
* `src/translator.py` : `_parse_batch_output`, the tenacity retry wrapper
  around `translate` and `translate_batch`
* `src/sheets.py`  : the cells targeted by `write_col_range`
* `src/main.py`    : the per-row driver loop, both the single-line path and
  the batched path with `flush_batch`

The OpenAI transport and the Google Sheets client are external
collaborators, modelled as oracle functions, so every theorem about the
driver quantifies over their behaviour.  The context tracker is concrete:
the driver reaches it through Python call-arity semantics, because every
`rctx.update` call in `main.py` passes four data arguments to the
three-parameter `RollingContext.update` of `context.py` and therefore
raises `TypeError`, which `main` never catches — the embedded driver state
carries that pending uncaught exception.
-/

/-- Python `str.strip()` restricted to the whitespace characters the pipeline
produces: drop whitespace from both ends of the string. -/
def pyStrip (s : String) : String :=
  String.mk (((s.data.dropWhile Char.isWhitespace).reverse.dropWhile Char.isWhitespace).reverse)

/-! ## utils.py -/

/-- First-character class `[A-ZÅÄÖ]` of the term regex in
`utils.extract_candidate_terms`. -/
def isUpperStart (c : Char) : Bool :=
  c.isUpper || c == 'Å' || c == 'Ä' || c == 'Ö'

/-- Continuation class `[\wÅÄÖåäö\-']` of the term regex.  Python `\w` is
modelled over the characters this pipeline feeds it: ASCII alphanumerics,
underscore and the Swedish accented letters named in the pattern.  The
apostrophe is the character with code 39.  The claims proved below do not
depend on the exact extent of this class. -/
def isTermChar (c : Char) : Bool :=
  c.isAlphanum || c == '_' || c == 'Å' || c == 'Ä' || c == 'Ö' ||
    c == 'å' || c == 'ä' || c == 'ö' || c == '-' || c.toNat == 39

theorem dropWhileLenLe (p : α → Bool) : ∀ l : List α, (l.dropWhile p).length ≤ l.length := by
  intro l
  induction l with
  | nil => simp
  | cons x xs ih =>
    rw [List.dropWhile_cons]
    by_cases h : p x
    · simp [h]; omega
    · simp [h]

/-- Leftmost non-overlapping maximal matches of `[A-ZÅÄÖ][\wÅÄÖåäö\-']+`,
as `re.findall` produces them: a match needs an upper-case starter followed
by at least one continuation character, and the scan resumes after the
consumed match (or one character further on a failed start). -/
def scanTerms : List Char → List String
  | [] => []
  | c :: rest =>
    if isUpperStart c then
      if rest.takeWhile isTermChar = [] then scanTerms rest
      else String.mk (c :: rest.takeWhile isTermChar) :: scanTerms (rest.dropWhile isTermChar)
    else scanTerms rest
termination_by cs => cs.length
decreasing_by
  · simp only [List.length_cons]; omega
  · have h := dropWhileLenLe isTermChar rest
    simp only [List.length_cons]; omega
  · simp only [List.length_cons]; omega

/-- `utils.extract_candidate_terms`: capitalized tokens longer than 2
characters. -/
def extract_candidate_terms (text : String) : List String :=
  (scanTerms text.data).filter (fun t => 2 < t.length)

/-! ## context.py -/

/-- The dataclass `RollingContext` of `src/context.py`.  The Python `dict`
for the glossary is insertion ordered, so it is embedded as an association
list. -/
structure RollingContext where
  window_size : Nat
  max_glossary_terms : Nat
  last_sources : List String
  last_outputs : List String
  last_speakers : List String
  glossary : List (String × Nat)

/-- One step of `self.glossary[t] = self.glossary.get(t, 0) + 1`: an existing
key keeps its position, a new key is appended at count 1. -/
def bumpTerm (g : List (String × Nat)) (t : String) : List (String × Nat) :=
  if g.any (fun p => p.1 == t) then
    g.map (fun p => if p.1 == t then (p.1, p.2 + 1) else p)
  else g ++ [(t, 1)]

/-- Stable insertion for a count-descending order: a new element passes every
element with a count at least its own, so earlier-seen entries stay first on
ties, as `Counter.most_common` guarantees. -/
def insertDesc (x : String × Nat) : List (String × Nat) → List (String × Nat)
  | [] => [x]
  | y :: ys => if x.2 ≤ y.2 then y :: insertDesc x ys else x :: y :: ys

/-- `Counter(self.glossary).most_common(...)` ordering: stable sort by count,
highest first. -/
def sortByCountDesc (g : List (String × Nat)) : List (String × Nat) :=
  g.foldl (fun acc x => insertDesc x acc) []

/-- The window step used three times in `RollingContext.update`: append, then
`pop(0)` when the length exceeds the window size. -/
def pushWin (W : Nat) (l : List α) (x : α) : List α :=
  let l2 := l ++ [x]
  if W < l2.length then l2.tail else l2

/-- Python `" ".join(...)`. -/
def joinSpace : List String → String
  | [] => ""
  | [s] => s
  | s :: rest => s ++ " " ++ joinSpace rest

/-- `RollingContext.update(character, source_text, out_text)` from
`src/context.py`: bump glossary counts for extracted terms, push each
non-empty field into its window, then prune the glossary to the
`max_glossary_terms` highest-frequency entries when it exceeds the cap. -/
def RollingContext.update (c : RollingContext) (character source_text out_text : String) :
    RollingContext :=
  let combined := joinSpace (([character, source_text]).filter (fun s => s != ""))
  let g1 := (extract_candidate_terms combined).foldl bumpTerm c.glossary
  let sources1 := if source_text ≠ "" then pushWin c.window_size c.last_sources source_text
    else c.last_sources
  let speakers1 := if character ≠ "" then pushWin c.window_size c.last_speakers character
    else c.last_speakers
  let outputs1 := if out_text ≠ "" then pushWin c.window_size c.last_outputs out_text
    else c.last_outputs
  let g2 := if c.max_glossary_terms < g1.length then
      (sortByCountDesc g1).take c.max_glossary_terms
    else g1
  { window_size := c.window_size, max_glossary_terms := c.max_glossary_terms,
    last_sources := sources1, last_outputs := outputs1, last_speakers := speakers1,
    glossary := g2 }

/-- A tracker as constructed at run start: configured sizes, empty windows,
empty glossary (the dataclass defaults). -/
def RollingContext.init (W G : Nat) : RollingContext :=
  { window_size := W, max_glossary_terms := G,
    last_sources := [], last_outputs := [], last_speakers := [], glossary := [] }

/-- A sequence of `update` calls, each a `(character, source_text, out_text)`
triple, applied in order. -/
def applyUpdates (c : RollingContext) (us : List (String × String × String)) : RollingContext :=
  us.foldl (fun acc u => acc.update u.1 u.2.1 u.2.2) c

/-- The last `n` elements of a list, in order. -/
def lastN (n : Nat) (l : List α) : List α := l.drop (l.length - n)

/-- The speaker values a sequence of update calls inserts into the speakers
window (the non-empty ones, in call order). -/
def speakersIn (us : List (String × String × String)) : List String :=
  (us.map (fun u => u.1)).filter (fun s => s != "")

/-- The source snippets a sequence of update calls inserts into the sources
window. -/
def sourcesIn (us : List (String × String × String)) : List String :=
  (us.map (fun u => u.2.1)).filter (fun s => s != "")

/-- The output lines a sequence of update calls inserts into the outputs
window. -/
def outputsIn (us : List (String × String × String)) : List String :=
  (us.map (fun u => u.2.2)).filter (fun s => s != "")

theorem pushWin_lastN (W : Nat) (hist : List α) (x : α) :
    pushWin W (lastN W hist) x = lastN W (hist ++ [x]) := by
  unfold pushWin lastN
  by_cases hlt : hist.length < W
  · have h0 : hist.length - W = 0 := by omega
    have hcond : ¬ W < (hist.drop (hist.length - W) ++ [x]).length := by
      rw [h0, List.drop_zero]
      simp only [List.length_append, List.length_cons, List.length_nil]
      omega
    rw [if_neg hcond, h0, List.drop_zero]
    have h1 : (hist ++ [x]).length - W = 0 := by
      simp only [List.length_append, List.length_cons, List.length_nil]
      omega
    rw [h1, List.drop_zero]
  · have hWle : W ≤ hist.length := Nat.le_of_not_lt hlt
    have hdlen : (hist.drop (hist.length - W)).length = W := by
      rw [List.length_drop]; omega
    have hcond : W < (hist.drop (hist.length - W) ++ [x]).length := by
      simp only [List.length_append, List.length_cons, List.length_nil, hdlen]
      omega
    rw [if_pos hcond]
    by_cases hW0 : W = 0
    · subst hW0
      rw [Nat.sub_zero, List.drop_length]
      have h2 : (hist ++ [x]).length - 0 = (hist ++ [x]).length := Nat.sub_zero _
      rw [h2, List.drop_length]
      rfl
    · have hW1 : 1 ≤ W := Nat.one_le_iff_ne_zero.mpr hW0
      have hne : hist.drop (hist.length - W) ≠ [] := by
        intro h
        rw [h] at hdlen
        simp only [List.length_nil] at hdlen
        omega
      obtain ⟨a, as, ha⟩ := List.exists_cons_of_ne_nil hne
      have htd : (hist.drop (hist.length - W)).tail = hist.drop (hist.length - W + 1) :=
        List.tail_drop hist (hist.length - W)
      rw [ha] at htd
      simp only [List.tail_cons] at htd
      rw [ha]
      simp only [List.cons_append, List.tail_cons]
      have hle : hist.length + 1 - W ≤ hist.length := by omega
      have happ : (hist ++ [x]).length - W = hist.length + 1 - W := by
        simp only [List.length_append, List.length_cons, List.length_nil]
      rw [happ, List.drop_append_of_le_length hle]
      have heq : hist.length - W + 1 = hist.length + 1 - W := by omega
      rw [htd, heq]

theorem applyUpdates_fields (W G : Nat) (us : List (String × String × String)) :
    (applyUpdates (RollingContext.init W G) us).window_size = W ∧
    (applyUpdates (RollingContext.init W G) us).max_glossary_terms = G ∧
    (applyUpdates (RollingContext.init W G) us).last_speakers = lastN W (speakersIn us) ∧
    (applyUpdates (RollingContext.init W G) us).last_sources = lastN W (sourcesIn us) ∧
    (applyUpdates (RollingContext.init W G) us).last_outputs = lastN W (outputsIn us) := by
  induction us using List.reverseRecOn with
  | nil =>
    simp [applyUpdates, RollingContext.init, lastN, speakersIn, sourcesIn, outputsIn]
  | append_singleton us u ih =>
    obtain ⟨hW, hG, hsp, hso, hou⟩ := ih
    have happ : applyUpdates (RollingContext.init W G) (us ++ [u])
        = (applyUpdates (RollingContext.init W G) us).update u.1 u.2.1 u.2.2 := by
      simp [applyUpdates, List.foldl_append]
    have hspL : speakersIn (us ++ [u])
        = speakersIn us ++ (if u.1 ≠ "" then [u.1] else []) := by
      by_cases h : u.1 = "" <;>
        simp [speakersIn, List.map_append, List.filter_append, h]
    have hsoL : sourcesIn (us ++ [u])
        = sourcesIn us ++ (if u.2.1 ≠ "" then [u.2.1] else []) := by
      by_cases h : u.2.1 = "" <;>
        simp [sourcesIn, List.map_append, List.filter_append, h]
    have houL : outputsIn (us ++ [u])
        = outputsIn us ++ (if u.2.2 ≠ "" then [u.2.2] else []) := by
      by_cases h : u.2.2 = "" <;>
        simp [outputsIn, List.map_append, List.filter_append, h]
    rw [happ]
    refine ⟨by simp [RollingContext.update, hW], by simp [RollingContext.update, hG], ?_, ?_, ?_⟩
    · by_cases h : u.1 = ""
      · simp [RollingContext.update, h, hsp, hspL]
      · simp only [RollingContext.update, h, ne_eq, not_false_iff, if_true, hW, hsp, hspL,
          if_neg (fun hc => h hc)]
        rw [pushWin_lastN]
    · by_cases h : u.2.1 = ""
      · simp [RollingContext.update, h, hso, hsoL]
      · simp only [RollingContext.update, h, ne_eq, not_false_iff, if_true, hW, hso, hsoL,
          if_neg (fun hc => h hc)]
        rw [pushWin_lastN]
    · by_cases h : u.2.2 = ""
      · simp [RollingContext.update, h, hou, houL]
      · simp only [RollingContext.update, h, ne_eq, not_false_iff, if_true, hW, hou, houL,
          if_neg (fun hc => h hc)]
        rw [pushWin_lastN]

theorem update_glossary_le (c : RollingContext) (a b d : String) :
    (c.update a b d).glossary.length ≤ c.max_glossary_terms ∨
    (c.update a b d).glossary.length =
      ((extract_candidate_terms (joinSpace (([a, b]).filter (fun s => s != "")))).foldl
        bumpTerm c.glossary).length := by
  simp only [RollingContext.update]
  by_cases h : c.max_glossary_terms <
      ((extract_candidate_terms (joinSpace (([a, b]).filter (fun s => s != "")))).foldl
        bumpTerm c.glossary).length
  · left
    simp only [if_pos h]
    exact List.length_take_le _ _
  · right
    simp only [if_neg h]

/-- C5: after every update call the three windows are no longer than the
window size `W` and the glossary holds at most `G` entries.  Stated for an
arbitrary call sequence `us ++ [u]` on a tracker created with `W` and `G`,
so it covers the state after every call of every sequence. -/
theorem C5_window_glossary_bounds (W G : Nat) (us : List (String × String × String))
    (u : String × String × String) :
    (applyUpdates (RollingContext.init W G) (us ++ [u])).last_speakers.length ≤ W ∧
    (applyUpdates (RollingContext.init W G) (us ++ [u])).last_sources.length ≤ W ∧
    (applyUpdates (RollingContext.init W G) (us ++ [u])).last_outputs.length ≤ W ∧
    (applyUpdates (RollingContext.init W G) (us ++ [u])).glossary.length ≤ G := by
  obtain ⟨hW, hG, hsp, hso, hou⟩ := applyUpdates_fields W G (us ++ [u])
  obtain ⟨hW0, hG0, _, _, _⟩ := applyUpdates_fields W G us
  refine ⟨?_, ?_, ?_, ?_⟩
  · rw [hsp]; unfold lastN; rw [List.length_drop]; omega
  · rw [hso]; unfold lastN; rw [List.length_drop]; omega
  · rw [hou]; unfold lastN; rw [List.length_drop]; omega
  · have happ : applyUpdates (RollingContext.init W G) (us ++ [u])
        = (applyUpdates (RollingContext.init W G) us).update u.1 u.2.1 u.2.2 := by
      simp [applyUpdates, List.foldl_append]
    rw [happ]
    rcases update_glossary_le (applyUpdates (RollingContext.init W G) us) u.1 u.2.1 u.2.2 with
      h | h
    · omega
    · rw [h]
      by_contra hgt
      push_neg at hgt
      have hcap : (applyUpdates (RollingContext.init W G) us).max_glossary_terms <
          ((extract_candidate_terms
            (joinSpace (([u.1, u.2.1]).filter (fun s => s != "")))).foldl bumpTerm
            (applyUpdates (RollingContext.init W G) us).glossary).length := by omega
      have : ((applyUpdates (RollingContext.init W G) us).update u.1 u.2.1 u.2.2).glossary.length
          ≤ (applyUpdates (RollingContext.init W G) us).max_glossary_terms := by
        simp only [RollingContext.update, if_pos hcap]
        exact List.length_take_le _ _
      rw [h] at this
      omega

/-- C6: the three windows evict strictly FIFO.  First conjunct: after any
sequence of updates each window holds exactly the last `W` inserted values in
insertion order.  Second conjunct: when an append happens on a full window
(length `W`, `W > 0`), the evicted element is exactly the head, i.e. the
oldest-inserted one. -/
theorem C6_fifo_windows (W G : Nat) (us : List (String × String × String)) :
    ((applyUpdates (RollingContext.init W G) us).last_speakers = lastN W (speakersIn us) ∧
     (applyUpdates (RollingContext.init W G) us).last_sources = lastN W (sourcesIn us) ∧
     (applyUpdates (RollingContext.init W G) us).last_outputs = lastN W (outputsIn us)) ∧
    (∀ (l : List String) (x : String), 0 < W → l.length = W →
      pushWin W l x = l.tail ++ [x]) := by
  obtain ⟨_, _, hsp, hso, hou⟩ := applyUpdates_fields W G us
  refine ⟨⟨hsp, hso, hou⟩, ?_⟩
  intro l x hW hl
  unfold pushWin
  have hcond : W < (l ++ [x]).length := by
    simp only [List.length_append, List.length_cons, List.length_nil]
    omega
  rw [if_pos hcond]
  cases l with
  | nil => simp at hl; omega
  | cons a as => simp

/-! ## translator.py : batch-response parsing -/

/-- Python `str.splitlines()` over the line terminators the pipeline meets:
`\n`, `\r\n` and `\r`.  A trailing terminator does not produce a final empty
line, and the empty string has no lines. -/
def splitLinesAux : List Char → List Char → List String
  | [], acc => if acc.isEmpty then [] else [String.mk acc]
  | '\r' :: '\n' :: rest, acc => String.mk acc :: splitLinesAux rest []
  | '\r' :: rest, acc => String.mk acc :: splitLinesAux rest []
  | '\n' :: rest, acc => String.mk acc :: splitLinesAux rest []
  | c :: rest, acc => splitLinesAux rest (acc ++ [c])

def splitLines (s : String) : List String := splitLinesAux s.data []

/-- The per-line regex of strategy 1, `^\s*(\d+)[\)\.]\s*(.*)$` followed by
`.strip()` of the captured content: optional whitespace, one or more digits,
a closing parenthesis or a dot; the stripped rest of the line is the content.
Returns `none` when the line does not start a numbered block. -/
def matchNumbered (line : String) : Option String :=
  let cs := line.data.dropWhile Char.isWhitespace
  let digits := cs.takeWhile Char.isDigit
  let rest := cs.dropWhile Char.isDigit
  if digits.isEmpty then none
  else
    match rest with
    | [] => none
    | c :: rest2 =>
      if c == ')' || c == '.' then some (pyStrip (String.mk rest2)) else none

/-- Scanner state of strategy 1: closed blocks, the lines of the open block,
and whether a numbered marker has been seen (`current_idx is not None`). -/
structure ScanSt where
  blocks : List String
  current : List String
  started : Bool
deriving DecidableEq

/-- Python `"\n".join(current).strip()`. -/
def joinTrimBlock (ls : List String) : String := pyStrip (String.intercalate "\n" ls)

/-- One line of the strategy-1 scan in `_parse_batch_output`: a numbered
marker closes and pushes the open block (only when `current` is non-empty and
a marker was seen) and opens a new one seeded with the marker content when
that content is non-empty; any other line is appended, stripped, to the open
block, and dropped when no block is open. -/
def scanStep (st : ScanSt) (line : String) : ScanSt :=
  match matchNumbered line with
  | some content =>
    let blocks := if st.current ≠ [] ∧ st.started then st.blocks ++ [joinTrimBlock st.current]
      else st.blocks
    { blocks := blocks, current := if content = "" then [] else [content], started := true }
  | none =>
    if st.current ≠ [] then { st with current := st.current ++ [pyStrip line] } else st

/-- Strategy 1 of `_parse_batch_output`: scan all lines, then close and push
any still-open block. -/
def scanBlocks (lines : List String) : List String :=
  let st := lines.foldl scanStep ⟨[], [], false⟩
  if st.current ≠ [] then st.blocks ++ [joinTrimBlock st.current] else st.blocks

/-- The numbered blocks strategy 1 extracts from a raw response. -/
def numberedBlocks (text : String) : List String := scanBlocks (splitLines text)

/-- Strategy 2 of `_parse_batch_output`: every non-empty stripped line of the
raw response. -/
def nonEmptyLines (text : String) : List String :=
  ((splitLines text).map pyStrip).filter (fun l => l != "")

/-- The `ValueError` raised by `_parse_batch_output` when no strategy
matches, carrying the expected count and the raw text. -/
structure ParseError where
  expected : Nat
  raw : String
deriving DecidableEq

/-- `_parse_batch_output(text, expected)` from `src/translator.py`: numbered
blocks when their count matches, else non-empty lines when their count
matches, else the whole stripped text when exactly one item was expected,
else a parse failure. -/
def parse_batch_output (text : String) (expected : Nat) : Except ParseError (List String) :=
  let blocks := numberedBlocks text
  if blocks.length = expected then Except.ok blocks
  else
    let fallback := nonEmptyLines text
    if fallback.length = expected then Except.ok fallback
    else if expected = 1 then Except.ok [pyStrip text]
    else Except.error { expected := expected, raw := text }

/-- C3: the three parsing strategies apply in order — numbered blocks when
their count is exactly `N`, otherwise non-empty stripped lines when their
count is exactly `N`, otherwise the whole stripped response when `N = 1` —
and on the response with three numbered blocks the result is the three block
contents in parse order. -/
theorem C3_parse_strategy_order :
    (∀ (t : String) (N : Nat), (numberedBlocks t).length = N →
      parse_batch_output t N = Except.ok (numberedBlocks t)) ∧
    (∀ (t : String) (N : Nat), (numberedBlocks t).length ≠ N →
      (nonEmptyLines t).length = N →
      parse_batch_output t N = Except.ok (nonEmptyLines t)) ∧
    (∀ t : String, (numberedBlocks t).length ≠ 1 → (nonEmptyLines t).length ≠ 1 →
      parse_batch_output t 1 = Except.ok [pyStrip t]) ∧
    parse_batch_output "1) A\n2) B\n3) C" 3 = Except.ok ["A", "B", "C"] := by
  refine ⟨?_, ?_, ?_, rfl⟩
  · intro t N h
    simp [parse_batch_output, h]
  · intro t N h1 h2
    simp [parse_batch_output, h1, h2]
  · intro t h1 h2
    simp [parse_batch_output, h1, h2]

/-- Witness for C3: strategy 1 applied at a concrete one-block response. -/
theorem C3_witness : parse_batch_output "1) X" 1 = Except.ok ["X"] := by
  have h := C3_parse_strategy_order.1 "1) X" 1 (by decide)
  rw [show numberedBlocks "1) X" = ["X"] from by decide] at h
  exact h

/-- C4: with `N ≠ 1`, when neither the numbered-block count nor the
non-empty-line count equals `N`, parsing raises the dedicated parse failure
(the `ValueError` value carrying `N` and the raw text) instead of returning a
truncated or padded result. -/
theorem C4_parse_failure (t : String) (N : Nat) (hN : N ≠ 1)
    (hb : (numberedBlocks t).length ≠ N) (hl : (nonEmptyLines t).length ≠ N) :
    parse_batch_output t N = Except.error { expected := N, raw := t } := by
  simp [parse_batch_output, hb, hl, hN]

/-- Witness for C4: three items expected, two identifiable blocks, two
non-empty lines. -/
theorem C4_witness :
    parse_batch_output "1) A\n2) B" 3 = Except.error { expected := 3, raw := "1) A\n2) B" } :=
  C4_parse_failure "1) A\n2) B" 3 (by decide) (by decide) (by decide)

/-- C10: everything before the first numbered marker is discarded by the
strategy-1 scan — the scan of any line list equals the scan of that list with
its marker-free prefix removed, so no content preceding the first marker can
reach a returned block. -/
theorem C10_prefix_discarded (lines : List String) :
    scanBlocks lines = scanBlocks (lines.dropWhile (fun l => (matchNumbered l).isNone)) := by
  have hstep : ∀ l, (matchNumbered l).isNone = true →
      scanStep ⟨[], [], false⟩ l = ⟨[], [], false⟩ := by
    intro l h
    unfold scanStep
    cases hm : matchNumbered l with
    | none => simp
    | some c => rw [hm] at h; simp [Option.isNone] at h
  have hfold : ∀ ls : List String,
      ls.foldl scanStep ⟨[], [], false⟩
        = (ls.dropWhile (fun l => (matchNumbered l).isNone)).foldl scanStep ⟨[], [], false⟩ := by
    intro ls
    induction ls with
    | nil => simp
    | cons l ls ih =>
      by_cases h : (matchNumbered l).isNone = true
      · rw [List.dropWhile_cons]
        simp only [h, if_true]
        rw [List.foldl_cons, hstep l h]
        exact ih
      · rw [List.dropWhile_cons, if_neg h]
  unfold scanBlocks
  rw [hfold]

/-! ## translator.py : retry wrapper and the two translation operations

The OpenAI transport is an external collaborator: it is modelled as an
oracle `tr : Nat → Option String` giving, for each attempt number, either
the response text of that attempt or a transport failure.  Prompt
construction is pure string templating with no effect on control flow, so it
is not re-modelled here.
-/

/-- Failures a decorated translation call can hit: a transport failure from
the backend, or the `ValueError` of `_parse_batch_output`. -/
inductive CallError where
  | transport : CallError
  | parseFailure : Nat → String → CallError
deriving DecidableEq

/-- Boolean success test for `Except`. -/
def exceptOk : Except ε α → Bool
  | Except.ok _ => true
  | Except.error _ => false

/-- The attempt loop of `tenacity.retry(stop=stop_after_attempt(5), ...)`:
with `fuel` attempts left, run attempt `k`; return its value on success, and
on failure either give up (no fuel left) with that error or move to the next
attempt. -/
def retryGo (body : Nat → Except ε α) : Nat → Nat → Except ε α
  | 0, k => body k
  | fuel + 1, k =>
    match body k with
    | Except.ok a => Except.ok a
    | Except.error e => if fuel = 0 then Except.error e else retryGo body fuel (k + 1)

/-- The decorator `@retry(stop=stop_after_attempt(5), ...)`: at most 5
attempts, numbered from 0. -/
def retryCall (body : Nat → Except ε α) : Except ε α := retryGo body 5 0

/-- Attempt accounting for the same loop: `cost k` is charged for attempt `k`
whenever that attempt runs. -/
def retryCost (body : Nat → Except ε α) (cost : Nat → Nat) : Nat → Nat → Nat
  | 0, _ => 0
  | fuel + 1, k =>
    cost k + (match body k with
      | Except.ok _ => 0
      | Except.error _ => if fuel = 0 then 0 else retryCost body cost fuel (k + 1))

/-- Number of attempts the retry wrapper makes on `body`. -/
def attemptsMade (body : Nat → Except ε α) : Nat := retryCost body (fun _ => 1) 5 0

/-- One attempt of `LineTranslator.translate`: call the backend and strip the
response; a transport error propagates into the retried body. -/
def singleAttempt (tr : Nat → Option String) (k : Nat) : Except CallError String :=
  match tr k with
  | none => Except.error CallError.transport
  | some raw => Except.ok (pyStrip raw)

/-- `LineTranslator.translate` from `src/translator.py`: the single-line call
under the retry decorator.  The prompt arguments do not influence the
embedded control flow. -/
def LineTranslator.translate (character uk en context_block episode_synopsis : String)
    (tr : Nat → Option String) : Except CallError String :=
  retryCall (singleAttempt tr)

/-- One attempt of `LineTranslator.translate_batch`: an empty item list
returns immediately; otherwise call the backend, strip the response, and run
`_parse_batch_output` on it inside the same attempt, so a parse failure is an
attempt failure exactly like a transport failure. -/
def batchAttempt (items : List (String × String × String)) (tr : Nat → Option String)
    (k : Nat) : Except CallError (List String) :=
  if items.isEmpty then Except.ok []
  else
    match tr k with
    | none => Except.error CallError.transport
    | some raw =>
      match parse_batch_output (pyStrip raw) items.length with
      | Except.ok l => Except.ok l
      | Except.error e => Except.error (CallError.parseFailure e.expected e.raw)

/-- `LineTranslator.translate_batch` from `src/translator.py`: the batch call
under the same retry decorator, parsing included. -/
def LineTranslator.translate_batch (items : List (String × String × String))
    (context_block episode_synopsis : String) (tr : Nat → Option String) :
    Except CallError (List String) :=
  retryCall (batchAttempt items tr)

/-- Number of backend requests `translate_batch` issues: one per attempt made
with a non-empty item list, none for an empty list. -/
def batchTransportCalls (items : List (String × String × String))
    (tr : Nat → Option String) : Nat :=
  retryCost (batchAttempt items tr) (fun _ => if items.isEmpty then 0 else 1) 5 0

/-- `tenacity.wait_exponential_jitter(initial=1, max=15)` before retrying
after failed attempt `n` (1-based), with jitter draw `j` (uniform in
`[0, 1]`): `max(0, min(initial * 2^(n-1) + j, 15))`. -/
def waitExpJitter (n : Nat) (j : ℚ) : ℚ :=
  max 0 (min (1 * 2 ^ (n - 1) + j) 15)

theorem retryCost_le_fuel (body : Nat → Except ε α) :
    ∀ (fuel k : Nat), retryCost body (fun _ => 1) fuel k ≤ fuel := by
  intro fuel
  induction fuel with
  | zero => intro k; simp [retryCost]
  | succ fuel ih =>
    intro k
    unfold retryCost
    cases body k with
    | ok a => simp
    | error e =>
      by_cases h : fuel = 0
      · simp [h]
      · simp only [if_neg h]
        have := ih (k + 1)
        omega

theorem retryGo_all_fail (body : Nat → Except ε α) :
    ∀ (fuel k : Nat), 0 < fuel → (∀ j, j < fuel → exceptOk (body (k + j)) = false) →
      retryGo body fuel k = body (k + (fuel - 1)) := by
  intro fuel
  induction fuel with
  | zero => intro k h; omega
  | succ fuel ih =>
    intro k _ hall
    have h0 := hall 0 (by omega)
    rw [Nat.add_zero] at h0
    cases hb : body k with
    | ok a => rw [hb] at h0; simp [exceptOk] at h0
    | error e =>
      by_cases hf : fuel = 0
      · subst hf
        simp [retryGo, hb]
      · have hrec := ih (k + 1) (by omega) (fun j hj => by
          have h := hall (j + 1) (by omega)
          rw [show k + (j + 1) = k + 1 + j by omega] at h
          exact h)
        calc retryGo body (fuel + 1) k = retryGo body fuel (k + 1) := by
              simp [retryGo, hb, hf]
          _ = body (k + 1 + (fuel - 1)) := hrec
          _ = body (k + (fuel + 1 - 1)) := by congr 1; omega

theorem retryGo_first_ok (body : Nat → Except ε α) :
    ∀ (fuel k m : Nat), m < fuel → (∀ j, j < m → exceptOk (body (k + j)) = false) →
      exceptOk (body (k + m)) = true → retryGo body fuel k = body (k + m) := by
  intro fuel
  induction fuel with
  | zero => intro k m h; omega
  | succ fuel ih =>
    intro k m hm hfail hok
    cases m with
    | zero =>
      rw [Nat.add_zero] at hok ⊢
      cases hb : body k with
      | ok a => simp [retryGo, hb]
      | error e => rw [hb] at hok; simp [exceptOk] at hok
    | succ m2 =>
      have h0 := hfail 0 (by omega)
      rw [Nat.add_zero] at h0
      cases hb : body k with
      | ok a => rw [hb] at h0; simp [exceptOk] at h0
      | error e =>
        have hf : fuel ≠ 0 := by omega
        have hrec := ih (k + 1) m2 (by omega)
          (fun j hj => by
            have h := hfail (j + 1) (by omega)
            rw [show k + (j + 1) = k + 1 + j by omega] at h
            exact h)
          (by rw [show k + 1 + m2 = k + (m2 + 1) by omega]; exact hok)
        calc retryGo body (fuel + 1) k = retryGo body fuel (k + 1) := by
              simp [retryGo, hb, hf]
          _ = body (k + 1 + m2) := hrec
          _ = body (k + (m2 + 1)) := by congr 1; omega

theorem retryCost_congr_ok (b1 b2 : Nat → Except ε α) (cost : Nat → Nat)
    (h : ∀ k, exceptOk (b1 k) = exceptOk (b2 k)) :
    ∀ (fuel k : Nat), retryCost b1 cost fuel k = retryCost b2 cost fuel k := by
  intro fuel
  induction fuel with
  | zero => intro k; simp [retryCost]
  | succ fuel ih =>
    intro k
    unfold retryCost
    have hk := h k
    cases hb1 : b1 k with
    | ok a =>
      cases hb2 : b2 k with
      | ok a2 => simp
      | error e2 => rw [hb1, hb2] at hk; simp [exceptOk] at hk
    | error e =>
      cases hb2 : b2 k with
      | ok a2 => rw [hb1, hb2] at hk; simp [exceptOk] at hk
      | error e2 => simp [ih]

/-- C8: the retry policy of both backend operations.  In order: the wrapper
makes at most 5 attempts; when all 5 attempts fail the error of the fifth
attempt is what the wrapper returns (it propagates to the caller); the first
successful attempt within the 5 is returned as the result; the wrapper reacts
only to the success bit of an attempt, never to which error occurred, so a
batch parse failure is retried exactly like a transport failure; both
`translate` and `translate_batch` are that wrapper applied to a single
attempt body — for the batch body, parsing runs inside the attempt; and the
wait before retrying grows as `initial * 2^(n-1)` plus jitter, clamped to
`[0, 15]`, with a strictly increasing exponential base. -/
theorem C8_retry_policy :
    (∀ body : Nat → Except CallError (List String), attemptsMade body ≤ 5) ∧
    (∀ body : Nat → Except CallError (List String),
      (∀ j, j < 5 → exceptOk (body j) = false) → retryCall body = body 4) ∧
    (∀ (body : Nat → Except CallError (List String)) (m : Nat), m < 5 →
      (∀ j, j < m → exceptOk (body j) = false) → exceptOk (body m) = true →
      retryCall body = body m) ∧
    (∀ b1 b2 : Nat → Except CallError (List String),
      (∀ k, exceptOk (b1 k) = exceptOk (b2 k)) → attemptsMade b1 = attemptsMade b2) ∧
    (∀ (items : List (String × String × String)) (cb syn : String) (tr : Nat → Option String),
      LineTranslator.translate_batch items cb syn tr = retryCall (batchAttempt items tr)) ∧
    (∀ (ch uk en cb syn : String) (tr : Nat → Option String),
      LineTranslator.translate ch uk en cb syn tr = retryCall (singleAttempt tr)) ∧
    (∀ (n : Nat) (j : ℚ), waitExpJitter n j = max 0 (min (1 * 2 ^ (n - 1) + j) 15)) ∧
    (∀ m n : Nat, 1 ≤ m → m < n → (1 : ℚ) * 2 ^ (m - 1) < 1 * 2 ^ (n - 1)) := by
  refine ⟨?_, ?_, ?_, ?_, ?_, ?_, ?_, ?_⟩
  · intro body
    exact retryCost_le_fuel body 5 0
  · intro body h
    have hall := retryGo_all_fail body 5 0 (by omega) (fun j hj => by simpa using h j hj)
    simpa [retryCall] using hall
  · intro body m hm hfail hok
    have hfirst := retryGo_first_ok body 5 0 m hm (fun j hj => by simpa using hfail j hj)
      (by simpa using hok)
    simpa [retryCall] using hfirst
  · intro b1 b2 h
    exact retryCost_congr_ok b1 b2 _ h 5 0
  · intro items cb syn tr
    rfl
  · intro ch uk en cb syn tr
    rfl
  · intro n j
    rfl
  · intro m n hm hmn
    simp only [one_mul]
    exact pow_lt_pow_right₀ one_lt_two (by omega)

/-- Witness body for C8: attempt 0 fails at the transport, attempt 1 fails at
parsing, attempt 2 succeeds. -/
def c8Body : Nat → Except CallError (List String) := fun k =>
  if k = 0 then Except.error CallError.transport
  else if k = 1 then Except.error (CallError.parseFailure 2 "junk")
  else Except.ok ["a", "b"]

/-- Witness for C8: after a transport failure and a parse failure the third
attempt is returned, showing both error kinds go through the same wrapper. -/
theorem C8_witness : retryCall c8Body = Except.ok ["a", "b"] := by
  have h := C8_retry_policy.2.2.1 c8Body 2 (by decide) (by decide) (by decide)
  rw [h]
  rfl

/-- C9: the batch operation on an empty item sequence returns the empty list
immediately — and no backend request is ever issued for it, for every
possible transport behaviour. -/
theorem C9_empty_batch (cb syn : String) (tr : Nat → Option String) :
    LineTranslator.translate_batch [] cb syn tr = Except.ok ([] : List String) ∧
    batchTransportCalls [] tr = 0 :=
  ⟨rfl, rfl⟩

/-! ## sheets.py -/

/-- The cells `SheetClient.write_col_range(col, start_row, values)` writes:
the contiguous rows `start_row .. start_row + len(values) - 1` of the output
column, one value per row in order. -/
def write_col_range_cells (start_row : Nat) (values : List String) : List Nat :=
  List.range' start_row values.length


/-! ## context.py : build_context_block and Python call arity -/

/-- Python `sorted` on strings: stable ascending lexicographic sort. -/
def insertSorted (x : String) : List String → List String
  | [] => [x]
  | y :: ys => if x ≤ y then x :: y :: ys else y :: insertSorted x ys

/-- Python `sorted(keys)` as `build_context_block` uses it. -/
def sortStrings (l : List String) : List String := l.foldr insertSorted []

/-- `RollingContext.build_context_block` from `src/context.py`: one labeled
section per non-empty field, sections joined by a blank line; the glossary
keys sorted and comma-separated. -/
def RollingContext.build_context_block (c : RollingContext) : String :=
  let parts : List String :=
    (if c.last_speakers ≠ [] then
      ["Recent speakers:\n" ++ String.intercalate "\n" (c.last_speakers.map (fun s => "- " ++ s))]
    else []) ++
    (if c.last_sources ≠ [] then
      ["Recent lines (source):\n" ++
        String.intercalate "\n" (c.last_sources.map (fun s => "- " ++ s))]
    else []) ++
    (if c.last_outputs ≠ [] then
      ["Recent output lines:\n" ++
        String.intercalate "\n" (c.last_outputs.map (fun s => "- " ++ s))]
    else []) ++
    (if c.glossary ≠ [] then
      ["Names/Terms glossary (keep consistent): " ++
        String.intercalate ", " (sortStrings (c.glossary.map (fun p => p.1)))]
    else [])
  String.intercalate "\n\n" parts

/-- The uncaught Python exception relevant to the driver: `TypeError` from a
call whose positional arguments do not match the declared parameters. -/
inductive PyError where
  | typeError : PyError
deriving DecidableEq

/-- A call to the bound method `RollingContext.update` under Python call
semantics: `update` declares exactly three data parameters
(`character, source_text, out_text`), so an argument list of any other
length raises `TypeError` without touching the tracker. -/
def callUpdate (c : RollingContext) (args : List String) : Except PyError RollingContext :=
  match args with
  | [character, source_text, out_text] => Except.ok (c.update character source_text out_text)
  | _ => Except.error PyError.typeError

/-- The argument list `main.py` passes at every one of its `rctx.update`
call sites: four data arguments `(ch, uk, en, out)`. -/
def driverUpdateArgs (ch uk en out : String) : List String := [ch, uk, en, out]

/-! ## main.py : the row pipeline driver

The OpenAI-backed translator operations and the sheet-write helpers are
embedded as an oracle record, so every driver theorem quantifies over their
behaviour.  The context tracker is the concrete `RollingContext`, called
with the argument list the source passes; since that list has four data
arguments against three declared parameters, each such call raises
`TypeError`, which `main` never catches — the embedded state therefore
carries the pending uncaught exception, and once it is set nothing further
runs.  Every externally visible action of the loop is recorded as an event,
in program order. -/

/-- One spreadsheet row as the driver loop unpacks it:
`(r, ch, uk, en, sv)`. -/
structure Row where
  idx : Nat
  ch : String
  uk : String
  en : String
  sv : String

/-- Run configuration relevant to the loop: `batch_size`, `skip_translated`,
`force`, `dry_run`. -/
structure DriverCfg where
  batchSize : Nat
  skipTranslated : Bool
  force : Bool
  dryRun : Bool

/-- Observable actions of the driver, in program order: a context-tracker
update that returned, a single-line translate call, a batch translate call,
a per-cell write attempt (with its outcome), a range write attempt (with its
outcome). -/
inductive Ev where
  | ctxUpd : String → String → String → String → Ev
  | callOne : String → String → String → String → Ev
  | callBatch : List (String × String × String) → String → Ev
  | writeCell : Nat → String → Bool → Ev
  | writeRange : Nat → List String → Bool → Ev
deriving DecidableEq

/-- The external collaborators of the driver: `tOne`/`tBatch` are the
translator operations (`none` = failed after exhausting retries);
`wCellRetry` is `write_cell_with_retry`, `wCellPlain` is the bare
`client.write_cell` of the single-line path, `wRange` is
`write_range_with_retry`, each returning whether the write succeeded. -/
structure Collab where
  tOne : String → String → String → String → String → Option String
  tBatch : List (String × String × String) → String → String → Option (List String)
  wCellRetry : Nat → String → Bool
  wCellPlain : Nat → String → Bool
  wRange : Nat → List String → Bool

/-- State of the single-line loop: the tracker, the pending uncaught
exception (if any), the `processed` counter, the event trace. -/
structure SingleSt where
  rctx : RollingContext
  err : Option PyError
  processed : Nat
  evs : List Ev

/-- State of the batched loop: additionally the `pending` list of
`(row_index, ch, uk, en)` tuples. -/
structure BatchSt where
  rctx : RollingContext
  err : Option PyError
  pending : List (Nat × String × String × String)
  processed : Nat
  evs : List Ev

/-- One iteration of the single-line loop of `main` (`batch_size <= 1`),
with the uncaught-exception semantics of the source: nothing runs once an
exception is pending.  Skip rows with both sources empty; on a row with a
non-empty stripped existing output (skipping on, force off) the driver calls
`rctx.update(ch, uk, en, sv)`; otherwise translate, then in dry-run mode
call `rctx.update` without writing, else write the cell and reach the
`rctx.update` call and the counter only on write success. -/
def singleStep (C : Collab) (syn : String) (cfg : DriverCfg) (st : SingleSt) (row : Row) :
    SingleSt :=
  if st.err.isSome then st
  else if row.uk = "" ∧ row.en = "" then st
  else if cfg.skipTranslated = true ∧ cfg.force = false ∧ pyStrip row.sv ≠ "" then
    match callUpdate st.rctx (driverUpdateArgs row.ch row.uk row.en row.sv) with
    | Except.ok c2 =>
      { st with rctx := c2, evs := st.evs ++ [Ev.ctxUpd row.ch row.uk row.en row.sv] }
    | Except.error e => { st with err := some e }
  else
    let cb := st.rctx.build_context_block
    let evs1 := st.evs ++ [Ev.callOne row.ch row.uk row.en cb]
    match C.tOne row.ch row.uk row.en cb syn with
    | none => { st with evs := evs1 }
    | some out =>
      if cfg.dryRun then
        match callUpdate st.rctx (driverUpdateArgs row.ch row.uk row.en out) with
        | Except.ok c2 =>
          { st with rctx := c2, processed := st.processed + 1,
                    evs := evs1 ++ [Ev.ctxUpd row.ch row.uk row.en out] }
        | Except.error e => { st with err := some e, evs := evs1 }
      else
        let okc := C.wCellPlain row.idx out
        let evs2 := evs1 ++ [Ev.writeCell row.idx out okc]
        if okc then
          match callUpdate st.rctx (driverUpdateArgs row.ch row.uk row.en out) with
          | Except.ok c2 =>
            { st with rctx := c2, processed := st.processed + 1,
                      evs := evs2 ++ [Ev.ctxUpd row.ch row.uk row.en out] }
          | Except.error e => { st with err := some e, evs := evs2 }
        else { st with evs := evs2 }

/-- The whole single-line path: fold the loop over the rows, starting from
the tracker state built at run start. -/
def runSingle (C : Collab) (syn : String) (cfg : DriverCfg) (rctx0 : RollingContext)
    (rows : List Row) : SingleSt :=
  rows.foldl (singleStep C syn cfg) { rctx := rctx0, err := none, processed := 0, evs := [] }

/-- Per-row body of the salvage loop in `flush_batch` after a failed batch
call, with the same exception semantics: translate the row alone with the
same context block; on success either dry-run or write through
`write_cell_with_retry`, reaching the `rctx.update` call only in dry-run or
after a successful write. -/
def fallbackStep (C : Collab) (syn : String) (cfg : DriverCfg) (cb : String)
    (acc : BatchSt) (q : Nat × String × String × String) : BatchSt :=
  if acc.err.isSome then acc
  else
    let evs1 := acc.evs ++ [Ev.callOne q.2.1 q.2.2.1 q.2.2.2 cb]
    match C.tOne q.2.1 q.2.2.1 q.2.2.2 cb syn with
    | none => { acc with evs := evs1 }
    | some out =>
      if cfg.dryRun then
        match callUpdate acc.rctx (driverUpdateArgs q.2.1 q.2.2.1 q.2.2.2 out) with
        | Except.ok c2 =>
          { acc with rctx := c2, processed := acc.processed + 1,
                     evs := evs1 ++ [Ev.ctxUpd q.2.1 q.2.2.1 q.2.2.2 out] }
        | Except.error e => { acc with err := some e, evs := evs1 }
      else
        let okc := C.wCellRetry q.1 out
        let evs2 := evs1 ++ [Ev.writeCell q.1 out okc]
        if okc then
          match callUpdate acc.rctx (driverUpdateArgs q.2.1 q.2.2.1 q.2.2.2 out) with
          | Except.ok c2 =>
            { acc with rctx := c2, processed := acc.processed + 1,
                       evs := evs2 ++ [Ev.ctxUpd q.2.1 q.2.2.1 q.2.2.2 out] }
          | Except.error e => { acc with err := some e, evs := evs2 }
        else { acc with evs := evs2 }

/-- Context update and counting for one batch row once its output text is
settled (the loops after a successful batch call): the `rctx.update` call
runs first; if it raises, the loop stops there. -/
def ctxCountStep (acc : BatchSt) (qv : (Nat × String × String × String) × String) : BatchSt :=
  if acc.err.isSome then acc
  else
    match callUpdate acc.rctx (driverUpdateArgs qv.1.2.1 qv.1.2.2.1 qv.1.2.2.2 qv.2) with
    | Except.ok c2 =>
      { acc with rctx := c2, processed := acc.processed + 1,
                 evs := acc.evs ++ [Ev.ctxUpd qv.1.2.1 qv.1.2.2.1 qv.1.2.2.2 qv.2] }
    | Except.error e => { acc with err := some e }

/-- Per-row body of the per-cell fallback after a failed range write: write
the cell through `write_cell_with_retry`; only on success reach the
`rctx.update` call. -/
def cellFallbackStep (C : Collab) (acc : BatchSt)
    (qv : (Nat × String × String × String) × String) : BatchSt :=
  if acc.err.isSome then acc
  else
    let okc := C.wCellRetry qv.1.1 qv.2
    let evs1 := acc.evs ++ [Ev.writeCell qv.1.1 qv.2 okc]
    if okc then
      match callUpdate acc.rctx (driverUpdateArgs qv.1.2.1 qv.1.2.2.1 qv.1.2.2.2 qv.2) with
      | Except.ok c2 =>
        { acc with rctx := c2, processed := acc.processed + 1,
                   evs := evs1 ++ [Ev.ctxUpd qv.1.2.1 qv.1.2.2.1 qv.1.2.2.2 qv.2] }
      | Except.error e => { acc with err := some e, evs := evs1 }
    else { acc with evs := evs1 }

/-- `flush_batch` from `main.py`.  Nothing happens with a pending exception
or an empty pending list.  Otherwise: build the context block once, call
`translate_batch`; on failure salvage row by row with `translate`.  On
success build `batch_values` (missing outputs become `""`), then either
dry-run, or issue one range write anchored at the row index of the first
pending tuple; when it succeeds run the update loop over every pending row,
when it fails fall back to per-cell writes.  The `pending = []` statement at
the end of each branch runs only when no exception was raised on the way. -/
def flushBatch (C : Collab) (syn : String) (cfg : DriverCfg) (st : BatchSt) : BatchSt :=
  if st.err.isSome then st
  else
    match st.pending with
    | [] => st
    | p0 :: _ =>
      let cb := st.rctx.build_context_block
      let items := st.pending.map (fun q => (q.2.1, q.2.2.1, q.2.2.2))
      let evs0 := st.evs ++ [Ev.callBatch items cb]
      match C.tBatch items cb syn with
      | none =>
        let stF := st.pending.foldl (fallbackStep C syn cfg cb) { st with evs := evs0 }
        if stF.err.isSome then stF else { stF with pending := [] }
      | some outs =>
        let vals := (List.range st.pending.length).map (fun i => outs.getD i "")
        if cfg.dryRun then
          let stF := (st.pending.zip vals).foldl ctxCountStep { st with evs := evs0 }
          if stF.err.isSome then stF else { stF with pending := [] }
        else
          let okr := C.wRange p0.1 vals
          let evs1 := evs0 ++ [Ev.writeRange p0.1 vals okr]
          if okr then
            let stF := (st.pending.zip vals).foldl ctxCountStep { st with evs := evs1 }
            if stF.err.isSome then stF else { stF with pending := [] }
          else
            let stF := (st.pending.zip vals).foldl (cellFallbackStep C) { st with evs := evs1 }
            if stF.err.isSome then stF else { stF with pending := [] }

/-- One iteration of the batched loop of `main` (`batch_size > 1`): the same
two skip rules as the single-line loop (the skip-as-done branch makes the
same `rctx.update(ch, uk, en, sv)` call), then queue the row and flush when
the pending list has reached the batch size. -/
def batchStep (C : Collab) (syn : String) (cfg : DriverCfg) (st : BatchSt) (row : Row) :
    BatchSt :=
  if st.err.isSome then st
  else if row.uk = "" ∧ row.en = "" then st
  else if cfg.skipTranslated = true ∧ cfg.force = false ∧ pyStrip row.sv ≠ "" then
    match callUpdate st.rctx (driverUpdateArgs row.ch row.uk row.en row.sv) with
    | Except.ok c2 =>
      { st with rctx := c2, evs := st.evs ++ [Ev.ctxUpd row.ch row.uk row.en row.sv] }
    | Except.error e => { st with err := some e }
  else
    let st1 := { st with pending := st.pending ++ [(row.idx, row.ch, row.uk, row.en)] }
    if cfg.batchSize ≤ st1.pending.length then flushBatch C syn cfg st1 else st1

/-- The whole batched path: fold the loop over the rows, then flush the
tail. -/
def runBatched (C : Collab) (syn : String) (cfg : DriverCfg) (rctx0 : RollingContext)
    (rows : List Row) : BatchSt :=
  flushBatch C syn cfg
    (rows.foldl (batchStep C syn cfg)
      { rctx := rctx0, err := none, pending := [], processed := 0, evs := [] })

/-- Concrete collaborator for closed runs: both translator operations
succeed, the batch one answering one output per item, prefixed with the item
speaker; every write succeeds. -/
def collabOk : Collab where
  tOne := fun ch _ _ _ _ => some ("T" ++ ch)
  tBatch := fun its _ _ => some (its.map (fun it => "T" ++ it.1))
  wCellRetry := fun _ _ => true
  wCellPlain := fun _ _ => true
  wRange := fun _ _ => true

/-- The failing input of C1: batched mode with batch size 2; row 3 is blank
(both sources empty), so it is skipped by the first check with no tracker
call, and the flushed batch holds the non-contiguous rows 2 and 4. -/
def rowsC1 : List Row :=
  [{ idx := 2, ch := "Ann", uk := "x", en := "", sv := "" },
   { idx := 3, ch := "", uk := "", en := "", sv := "" },
   { idx := 4, ch := "Cec", uk := "z", en := "", sv := "" }]

/-- Batched-mode configuration of the C1 run: batch size 2, skipping on,
force off, dry-run off. -/
def cfgC1 : DriverCfg :=
  { batchSize := 2, skipTranslated := true, force := false, dryRun := false }

/-- C1 fails on the code: `flush_batch` anchors its single range write at the
row index of the first pending row and writes `len(pending)` consecutive
cells.  Here the flushed batch holds rows 2 and 4 (blank row 3 was skipped
without any tracker call, so the run reaches the flush), every collaborator
call succeeds, and the trace shows the one range write starting at row 2
with the two outputs — by `write_col_range` it targets the cells of rows 2
and 3, so the output of row 4 lands in the cell of row 3 and row 4 is never
written, against the claim (and the spec sentence that results are written
back by index).  Immediately after that durable write the run aborts: the
first `rctx.update(ch, uk, en, out)` call of the post-write loop raises
`TypeError` (the update-arity slip), so no context update and no counting
follow the misdirected write. -/
theorem C1_range_write_misdirected :
    (runBatched collabOk "" cfgC1 (RollingContext.init 4 40) rowsC1).evs =
      [Ev.callBatch [("Ann", "x", ""), ("Cec", "z", "")] "",
       Ev.writeRange 2 ["TAnn", "TCec"] true] ∧
    (runBatched collabOk "" cfgC1 (RollingContext.init 4 40) rowsC1).err =
      some PyError.typeError ∧
    write_col_range_cells 2 ["TAnn", "TCec"] = [2, 3] :=
  ⟨rfl, rfl, rfl⟩

/-- Single-line-mode configuration with skipping on, force off, dry-run
off. -/
def cfgSkip : DriverCfg :=
  { batchSize := 1, skipTranslated := true, force := false, dryRun := false }

/-- The row of the concrete C2 run: one source field non-empty, output
already present. -/
def rowC2w : Row := { idx := 1, ch := "Ann", uk := "Hej", en := "", sv := "done" }

/-- C2 is right as a reading of the spec, and the code breaks it: on every
row that reaches the skip-as-done branch (skipping on, force off, at least
one source non-empty, stripped existing output non-empty) `main.py` calls
`rctx.update(ch, uk, en, sv)` with four data arguments, but
`RollingContext.update` declares three, so Python raises `TypeError`: the
tracker is never updated from the existing output and the run aborts (no
backend call and no write happen, but only because the run dies).  The first
two conjuncts show both driver modes turn such a row into exactly the
pending exception, with no trace event and no state change; the third
isolates the arity mismatch at every tracker state and argument tuple; the
last two evaluate a full run at the concrete failing input. -/
theorem C2_skip_update_raises :
    (∀ (C : Collab) (syn : String) (cfg : DriverCfg) (st : SingleSt) (row : Row),
      st.err = none → cfg.skipTranslated = true → cfg.force = false →
      (row.uk ≠ "" ∨ row.en ≠ "") → pyStrip row.sv ≠ "" →
      singleStep C syn cfg st row = { st with err := some PyError.typeError }) ∧
    (∀ (C : Collab) (syn : String) (cfg : DriverCfg) (st : BatchSt) (row : Row),
      st.err = none → cfg.skipTranslated = true → cfg.force = false →
      (row.uk ≠ "" ∨ row.en ≠ "") → pyStrip row.sv ≠ "" →
      batchStep C syn cfg st row = { st with err := some PyError.typeError }) ∧
    (∀ (c : RollingContext) (ch uk en sv : String),
      callUpdate c (driverUpdateArgs ch uk en sv) = Except.error PyError.typeError) ∧
    (runSingle collabOk "" cfgSkip (RollingContext.init 4 40) [rowC2w]).err =
      some PyError.typeError ∧
    (runSingle collabOk "" cfgSkip (RollingContext.init 4 40) [rowC2w]).evs = [] := by
  refine ⟨?_, ?_, fun c ch uk en sv => rfl, rfl, rfl⟩
  · intro C syn cfg st row herr hskip hforce hsrc hsv
    have hne : ¬(row.uk = "" ∧ row.en = "") := by
      intro hboth
      rcases hsrc with h1 | h1
      · exact h1 hboth.1
      · exact h1 hboth.2
    unfold singleStep
    rw [if_neg (by simp [herr]), if_neg hne, if_pos ⟨hskip, hforce, hsv⟩]
    rfl
  · intro C syn cfg st row herr hskip hforce hsrc hsv
    have hne : ¬(row.uk = "" ∧ row.en = "") := by
      intro hboth
      rcases hsrc with h1 | h1
      · exact h1 hboth.1
      · exact h1 hboth.2
    unfold batchStep
    rw [if_neg (by simp [herr]), if_neg hne, if_pos ⟨hskip, hforce, hsv⟩]
    rfl

/-- Witness for C2 at a concrete state and row in single-line mode: the step
is exactly the pending `TypeError`, with no tracker change and no event. -/
theorem C2_witness :
    singleStep collabOk "" cfgSkip { rctx := RollingContext.init 4 40, err := none, processed := 0, evs := [] } rowC2w =
      { rctx := RollingContext.init 4 40, err := some PyError.typeError, processed := 0, evs := [] } := by
  have h := C2_skip_update_raises.1 collabOk "" cfgSkip
    { rctx := RollingContext.init 4 40, err := none, processed := 0, evs := [] } rowC2w
    rfl rfl rfl (Or.inl (by decide)) (by decide)
  exact h

/-- C7: a row with both source fields empty is skipped entirely, in both
driver modes: the whole run on any row list containing such a row equals the
run with that row deleted — so the row triggers no tracker call, no
translate call and no write, whatever the collaborators do and from every
initial tracker state.  The skip is the first per-row check, so this holds
whether or not the run later aborts on the update-arity `TypeError`. -/
theorem C7_both_empty_skipped (C : Collab) (syn : String) (cfg : DriverCfg)
    (rctx0 : RollingContext) (pre post : List Row) (i : Nat) (ch sv : String) :
    runSingle C syn cfg rctx0 (pre ++ Row.mk i ch "" "" sv :: post) =
      runSingle C syn cfg rctx0 (pre ++ post) ∧
    runBatched C syn cfg rctx0 (pre ++ Row.mk i ch "" "" sv :: post) =
      runBatched C syn cfg rctx0 (pre ++ post) := by
  have hs : ∀ st : SingleSt, singleStep C syn cfg st (Row.mk i ch "" "" sv) = st := by
    intro st
    by_cases h : st.err.isSome <;> simp [singleStep, h]
  have hb : ∀ st : BatchSt, batchStep C syn cfg st (Row.mk i ch "" "" sv) = st := by
    intro st
    by_cases h : st.err.isSome <;> simp [batchStep, h]
  constructor
  · unfold runSingle
    rw [List.foldl_append, List.foldl_cons, hs, ← List.foldl_append]
  · unfold runBatched
    rw [List.foldl_append, List.foldl_cons, hb, ← List.foldl_append]

/-- Witness for C6 at concrete inputs: with window size 2, after three
updates the speakers window holds the last two speakers in order, and an
append on a full window evicts exactly the head. -/
theorem C6_witness :
    (applyUpdates (RollingContext.init 2 40)
      [("Ann", "Hej", "Yes"), ("Bo", "Nej", "No"), ("Cy", "Tja", "Je")]).last_speakers
      = ["Bo", "Cy"] ∧
    pushWin 2 ["a", "b"] "c" = ["b", "c"] := by
  constructor
  · have h := (C6_fifo_windows 2 40
      [("Ann", "Hej", "Yes"), ("Bo", "Nej", "No"), ("Cy", "Tja", "Je")]).1.1
    rw [h]
    decide
  · exact (C6_fifo_windows 2 40 []).2 ["a", "b"] "c" (by decide) (by decide)
